import Mathlib

/-!
Shallow embedding of the feed-continuation engine of the gitkot repository
(`src/lib/github.ts` and the `useGitHub` hook).

Modelling conventions:
* JavaScript `Set<number>` is modelled as a duplicate-free list that keeps
  insertion order (`JsSet`): `add` appends only when absent, `new Set(array)`
  deduplicates keeping the first occurrence.
* A JavaScript object used as a dictionary (the seen-repositories store) is
  an insertion-ordered association list with string keys; `seen[k] = v`
  replaces in place or appends (`sinsert`), `seen[k]` is `slookup`.
* `localStorage` is modelled as the single cell it holds for this code path
  (`Option Json`): `setItem` writes `some (serialized value)`, `removeItem`
  writes `none`.  The textual JSON encoding performed by the platform's
  `JSON.stringify`/`JSON.parse` pair is kept at the level of JSON values
  (`Json`); the persistence mechanics themselves are an external collaborator.
* Network fetches are an oracle `net : Nat → NetResult` giving the outcome
  the remote end would produce for the k-th invocation of
  `fetchRepositoriesPage`; `Math.random` is an oracle list of naturals,
  one consumed per candidate pick, reduced modulo the candidate count.
* The unbounded recursion of `tryFetchWithParams` is evaluated with fuel:
  fuel bounds the number of fetch attempts; running out of fuel yields no
  outcome (`none`), while the in-flight cursor state is still returned.
-/

/-- Substring test on character lists: `hasSubstr hay pat` is true iff `pat`
occurs contiguously in `hay` (the semantics of JavaScript
`String.prototype.includes`). -/
def hasSubstr : List Char → List Char → Bool
  | hay, pat =>
    if pat.isPrefixOf hay then true
    else
      match hay with
      | [] => false
      | _ :: t => hasSubstr t pat

/-- `containsSub s pat` models `s.includes(pat)` on JavaScript strings. -/
def containsSub (s pat : String) : Bool :=
  hasSubstr s.toList pat.toList

/-- A thrown JavaScript `Error`: its class (constructor name) and message.
Every value thrown by this code path is an `Error` subclass instance. -/
structure JsError where
  className : String
  message : String
deriving DecidableEq

/-- A JavaScript `Set` of naturals: insertion-ordered and duplicate-free. -/
def JsSet : Type := { l : List ℕ // l.Nodup }

instance : DecidableEq JsSet := fun a b =>
  decidable_of_iff (a.val = b.val) Subtype.ext_iff.symm

/-- The empty `new Set()`. -/
def JsSet.empty : JsSet := ⟨[], List.nodup_nil⟩

/-- `s.add(x)`: appends `x` unless already present (JS sets keep first
insertion position). -/
def JsSet.add (s : JsSet) (x : ℕ) : JsSet :=
  if h : x ∈ s.val then s
  else ⟨s.val ++ [x], by
    simpa [List.nodup_append, List.disjoint_singleton] using ⟨s.property, h⟩⟩

/-- `s.size`. -/
def JsSet.size (s : JsSet) : ℕ := s.val.length

/-- `s.has(x)` as a Bool. -/
def JsSet.has (s : JsSet) (x : ℕ) : Bool := decide (x ∈ s.val)

/-- `new Set(list)`: deduplication keeping the first occurrence.  The
accumulator holds the elements already emitted. -/
def jsDedupAux (acc : List ℕ) : List ℕ → List ℕ
  | [] => []
  | x :: xs => if x ∈ acc then jsDedupAux acc xs else x :: jsDedupAux (x :: acc) xs

theorem mem_jsDedupAux {l : List ℕ} {acc : List ℕ} {y : ℕ} :
    y ∈ jsDedupAux acc l ↔ (y ∈ l ∧ y ∉ acc) := by
  induction l generalizing acc with
  | nil => simp [jsDedupAux]
  | cons x xs ih =>
    by_cases hx : x ∈ acc
    · simp only [jsDedupAux, if_pos hx, ih, List.mem_cons]
      constructor
      · rintro ⟨hy, hyacc⟩; exact ⟨Or.inr hy, hyacc⟩
      · rintro ⟨hy | hy, hyacc⟩
        · exact absurd (hy ▸ hx) hyacc
        · exact ⟨hy, hyacc⟩
    · simp only [jsDedupAux, if_neg hx, List.mem_cons, ih, List.mem_cons, not_or]
      constructor
      · rintro (rfl | ⟨hy, hyx, hyacc⟩)
        · exact ⟨Or.inl rfl, hx⟩
        · exact ⟨Or.inr hy, hyacc⟩
      · rintro ⟨rfl | hy, hyacc⟩
        · exact Or.inl rfl
        · by_cases hyx : y = x
          · exact Or.inl hyx
          · exact Or.inr ⟨hy, hyx, hyacc⟩

theorem jsDedupAux_nodup (acc : List ℕ) (l : List ℕ) : (jsDedupAux acc l).Nodup := by
  induction l generalizing acc with
  | nil => simp [jsDedupAux]
  | cons x xs ih =>
    by_cases hx : x ∈ acc
    · simp only [jsDedupAux, if_pos hx]
      exact ih acc
    · simp only [jsDedupAux, if_neg hx]
      refine List.Nodup.cons ?_ (ih (x :: acc))
      intro hmem
      exact (mem_jsDedupAux.mp hmem).2 (List.mem_cons_self x acc)

/-- `new Set(list)` as a `JsSet`. -/
def jsSetOfList (l : List ℕ) : JsSet := ⟨jsDedupAux [] l, jsDedupAux_nodup [] l⟩

theorem jsDedupAux_eq_self {l : List ℕ} (hl : l.Nodup) {acc : List ℕ}
    (hdisj : ∀ x ∈ l, x ∉ acc) : jsDedupAux acc l = l := by
  induction l generalizing acc with
  | nil => simp [jsDedupAux]
  | cons x xs ih =>
    have hx : x ∉ acc := hdisj x (List.mem_cons_self x xs)
    have hxnot : x ∉ xs := (List.nodup_cons.mp hl).1
    have htail : jsDedupAux (x :: acc) xs = xs := by
      refine ih (List.nodup_cons.mp hl).2 ?_
      intro y hy
      simp only [List.mem_cons, not_or]
      exact ⟨fun h => hxnot (h ▸ hy), hdisj y (List.mem_cons_of_mem _ hy)⟩
    simp [jsDedupAux, hx, htail]

theorem jsSetOfList_nodup_eq {l : List ℕ} (hl : l.Nodup) : jsSetOfList l = ⟨l, hl⟩ := by
  apply Subtype.ext
  exact jsDedupAux_eq_self hl (by simp)

/-- Membership in `new Set(l)` is membership in `l`. -/
theorem mem_jsSetOfList {l : List ℕ} {y : ℕ} : y ∈ (jsSetOfList l).val ↔ y ∈ l := by
  simp [jsSetOfList, mem_jsDedupAux]

/-- `SearchCriteria` from `src/lib/github.ts`: `{ stars, language?, created? }`.
Optional fields absent in the TypeScript record are `none`. -/
structure SearchCriteria where
  stars : String
  language : Option String := none
  created : Option String := none
deriving DecidableEq

instance : Inhabited SearchCriteria := ⟨{ stars := "" }⟩

/-- A JavaScript object about to be serialized by `JSON.stringify`, restricted
to string-valued fields: an insertion-ordered field list, where a `none` value
stands for `undefined` (dropped by `JSON.stringify`). -/
def JsStringFields : Type := List (String × Option String)

/-- Minimal JSON string escaping (backslash and double quote), as performed by
`JSON.stringify` on the strings appearing in this program. -/
def jsonEscapeChar (c : Char) : List Char :=
  if c = '\\' then ['\\', '\\']
  else if c = '"' then ['\\', '"']
  else [c]

def jsonEscape (s : String) : String :=
  ⟨(s.toList.map jsonEscapeChar).flatten⟩

/-- One serialized field: `"name":"value"`. -/
def stringifyField (name value : String) : String :=
  "\"" ++ jsonEscape name ++ "\":\"" ++ jsonEscape value ++ "\""

/-- Comma-join, as between the fields of a serialized object. -/
def joinComma : List String → String
  | [] => ""
  | [x] => x
  | x :: xs => x ++ "," ++ joinComma xs

/-- `JSON.stringify` of a string-valued JavaScript object: fields are emitted
in insertion order; `undefined`-valued fields are dropped. -/
def stringifyStringFields (fields : JsStringFields) : String :=
  "\x7b" ++ joinComma (fields.filterMap fun kv => kv.2.map (stringifyField kv.1)) ++ "\x7d"

/-- The field list of a criteria record as every construction site of this
program builds it: the generator produces `{ stars }` or `{ stars, created }`
literals, and `getNextSearchParams` spreads such a record before adding
`language`, so insertion order is always `stars`, `created`, `language`. -/
def criteriaFieldsProgram (c : SearchCriteria) : JsStringFields :=
  [("stars", some c.stars), ("created", c.created), ("language", c.language)]

/-- The canonical SeenStore key: `JSON.stringify(criteria)` on the records the
program constructs. -/
def criteriaKey (c : SearchCriteria) : String :=
  stringifyStringFields (criteriaFieldsProgram c)

/-- `PER_PAGE` from `src/lib/github.ts`. -/
def PER_PAGE : ℕ := 10

/-- `MAX_PAGES` from `src/lib/github.ts` (GitHub's 1000-result limit at 10
items per page). -/
def MAX_PAGES : ℕ := 100

/-- `FeedType` from `src/lib/github.ts`. -/
inductive FeedType where
  | random
  | new
deriving DecidableEq

/-- `getSearchCriterias` from `src/lib/github.ts`.  The `new` branch formats
"seven days ago" from the current clock; that impure date is passed in as
`formattedDate`.  The default branch is the star-bucket list
`700...2000, 2000...4000, …, 48000...50000, >50000`. -/
def getSearchCriterias (formattedDate : String) : FeedType → List SearchCriteria
  | .new => [{ stars := ">10", created := some (">" ++ formattedDate) }]
  | .random =>
    [{ stars := "700...2000" }]
      ++ (List.range 24).map (fun k =>
            let i := 2000 + 2000 * k
            { stars := toString i ++ "..." ++ toString (i + 2000) })
      ++ [{ stars := ">50000" }]

/-- Modelled from the spec: the `useGitHub` hook imports a materialized
constant `SEARCH_CRITERIAS` from the library module, whose definition is not
part of this snapshot (the snapshot exports the equivalent generator
`getSearchCriterias` instead).  Per spec §4.1 the default feed's criteria
space is the star-bucket sequence, i.e. the default branch of the generator,
materialized once. -/
def SEARCH_CRITERIAS : List SearchCriteria := getSearchCriterias "" .random

/-- The hook's language normalization `language || undefined` applied when a
criteria is merged with the optional language filter (`null` and the empty
string are falsy, hence dropped). -/
def normLanguage (language : Option String) : Option String :=
  match language with
  | none => none
  | some s => if s = "" then none else some s

/-- `{ ...criteria, language: language || undefined }`. -/
def withLanguage (language : Option String) (c : SearchCriteria) : SearchCriteria :=
  { c with language := normLanguage language }

/-- A JSON value, the abstraction level at which the persisted store is
modelled (textual encoding is the platform's concern).  Numbers appearing in
this store are naturals (page numbers and page counts). -/
inductive Json where
  | null : Json
  | bool (b : Bool) : Json
  | num (n : ℕ) : Json
  | str (s : String) : Json
  | arr (elems : List Json) : Json
  | obj (fields : List (String × Json)) : Json

/-- One entry of the seen-repositories store (the hook's
`SeenRepositories[key]` record): `{ seenPages, totalPages, exhausted }` with
`totalPages : number | null` as `Option ℕ`. -/
structure SeenData where
  seenPages : JsSet
  totalPages : Option ℕ
  exhausted : Bool
deriving DecidableEq

/-- The in-memory seen-repositories store: a JavaScript object mapping the
criteria key to its progress record, kept as an insertion-ordered association
list. -/
def SeenRepositories : Type := List (String × SeenData)

instance : DecidableEq SeenRepositories := inferInstanceAs (DecidableEq (List _))

/-- `seen[key]` on the store object. -/
def slookup : SeenRepositories → String → Option SeenData
  | [], _ => none
  | (k, v) :: rest, key => if k = key then some v else slookup rest key

/-- `seen[key] = v`: replaces the entry in place, or appends it. -/
def sinsert : SeenRepositories → String → SeenData → SeenRepositories
  | [], key, v => [(key, v)]
  | (k, w) :: rest, key, v =>
    if k = key then (key, v) :: rest else (k, w) :: sinsert rest key v

theorem slookup_sinsert_self (seen : SeenRepositories) (key : String) (v : SeenData) :
    slookup (sinsert seen key v) key = some v := by
  induction seen with
  | nil => simp [sinsert, slookup]
  | cons kv rest ih =>
    obtain ⟨k, w⟩ := kv
    by_cases hk : k = key
    · simp [sinsert, slookup, hk]
    · simp [sinsert, slookup, hk, ih]

theorem slookup_sinsert_ne (seen : SeenRepositories) {key k : String} (v : SeenData)
    (hne : k ≠ key) : slookup (sinsert seen key v) k = slookup seen k := by
  have hne2 : key ≠ k := Ne.symm hne
  induction seen with
  | nil => simp [sinsert, slookup, hne2]
  | cons kv rest ih =>
    obtain ⟨k0, w⟩ := kv
    by_cases hk : k0 = key
    · subst hk
      simp [sinsert, slookup, hne2]
    · simp [sinsert, slookup, hk, ih]

/-- Serialization of one progress record as performed by
`saveSeenRepositories`: `JSON.stringify` with a replacer turning each `Set`
into an array (`Array.from` keeps insertion order). -/
def encodeSeenData (d : SeenData) : Json :=
  .obj [("seenPages", .arr (d.seenPages.val.map Json.num)),
        ("totalPages", match d.totalPages with | none => Json.null | some n => Json.num n),
        ("exhausted", .bool d.exhausted)]

/-- Serialization of the whole store. -/
def encodeStore (seen : SeenRepositories) : Json :=
  .obj (seen.map fun kv => (kv.1, encodeSeenData kv.2))

/-- `saveSeenRepositories(seen)`: the value the `localStorage` cell holds
afterwards (`setItem` with the serialized store). -/
def saveSeenRepositories (seen : SeenRepositories) : Option Json :=
  some (encodeStore seen)

/-- Reading a stored `seenPages` array back as a list of naturals; any
non-number element means the stored value is not a page-number array. -/
def decodeNats : List Json → Option (List ℕ)
  | [] => some []
  | .num n :: rest => (decodeNats rest).map (n :: ·)
  | _ => none

/-- The typed reading of one stored progress record, inverse to
`encodeSeenData`.  The reviver of `loadSeenRepositories` rebuilds
`new Set(value)` for the `seenPages` field; `none` models every stored shape
under which the JavaScript code does not produce a well-formed record (for
instance `new Set` applied to a number raises a `TypeError`). -/
def decodeSeenData : Json → Option SeenData
  | .obj [("seenPages", .arr pages), ("totalPages", tp), ("exhausted", .bool ex)] =>
    match decodeNats pages, tp with
    | some ps, .null => some { seenPages := jsSetOfList ps, totalPages := none, exhausted := ex }
    | some ps, .num n => some { seenPages := jsSetOfList ps, totalPages := some n, exhausted := ex }
    | _, _ => none
  | _ => none

/-- The typed reading of the entry list of a stored store object. -/
def decodeEntries : List (String × Json) → Option SeenRepositories
  | [] => some []
  | (k, v) :: rest =>
    match decodeSeenData v, decodeEntries rest with
    | some d, some s => some ((k, d) :: s)
    | _, _ => none

/-- The typed reading of a stored store value. -/
def decodeStore : Json → Option SeenRepositories
  | .obj fields => decodeEntries fields
  | _ => none

/-- `loadSeenRepositories()` as a function of the `localStorage` cell: an
absent (or falsy) stored value yields the empty store; otherwise the stored
text is parsed with the set-rebuilding reviver.  A `none` result models the
runs in which the code does not return a well-formed store: `JSON.parse`
throwing on corrupt text, the reviver's `new Set(value)` throwing on a
non-iterable `seenPages`, or the parsed value not being a store-shaped object
(the TypeScript cast hides this; no error handling exists in `load`). -/
def loadSeenRepositories : Option Json → Option SeenRepositories
  | none => some []
  | some stored => decodeStore stored

/-- `PageParam`: the continuation unit `{ criteria, page }`. -/
structure PageParam where
  criteria : SearchCriteria
  page : ℕ
deriving DecidableEq

/-- The availability test of `getNextSearchParams`:
`!seen[JSON.stringify(criteria)]?.exhausted` (a missing entry is available). -/
def isExhausted (seen : SeenRepositories) (key : String) : Bool :=
  match slookup seen key with
  | some d => d.exhausted
  | none => false

/-- The `availableCriterias` list of `getNextSearchParams`: the criteria
space, each merged with the language filter, minus exhausted entries. -/
def availableCriterias (lang : Option String) (seen : SeenRepositories) : List SearchCriteria :=
  (SEARCH_CRITERIAS.map (withLanguage lang)).filter fun c => !(isExhausted seen (criteriaKey c))

theorem isExhausted_sinsert_self (seen : SeenRepositories) (key : String) (v : SeenData) :
    isExhausted (sinsert seen key v) key = v.exhausted := by
  simp [isExhausted, slookup_sinsert_self]

theorem isExhausted_sinsert_ne (seen : SeenRepositories) {key k : String} (v : SeenData)
    (hne : k ≠ key) : isExhausted (sinsert seen key v) k = isExhausted seen k := by
  simp [isExhausted, slookup_sinsert_ne _ _ hne]

theorem filter_sublist_of_imp {α : Type} {l : List α} {p q : α → Bool}
    (himp : ∀ x ∈ l, q x = true → p x = true) :
    List.Sublist (l.filter q) (l.filter p) := by
  induction l with
  | nil => simp
  | cons x xs ih =>
    have ihx := ih fun y hy => himp y (List.mem_cons_of_mem _ hy)
    by_cases hq : q x = true
    · have hp := himp x (List.mem_cons_self x xs) hq
      simpa [List.filter_cons, hq, hp] using ihx.cons₂ x
    · have hq2 : q x = false := by simpa using hq
      by_cases hp : p x = true
      · simpa [List.filter_cons, hq2, hp] using ihx.cons x
      · have hp2 : p x = false := by simpa using hp
        simpa [List.filter_cons, hq2, hp2] using ihx

theorem length_filter_lt_of_flip {α : Type} [DecidableEq α] {l : List α} {p q : α → Bool}
    (himp : ∀ x ∈ l, q x = true → p x = true) {a : α} (ha : a ∈ l)
    (hpa : p a = true) (hqa : q a = false) :
    (l.filter q).length < (l.filter p).length := by
  have hs := filter_sublist_of_imp himp
  refine Nat.lt_of_le_of_ne hs.length_le fun heq => ?_
  have hlists := hs.eq_of_length heq
  have hmem : a ∈ l.filter p := List.mem_filter.mpr ⟨ha, hpa⟩
  rw [← hlists] at hmem
  have := (List.mem_filter.mp hmem).2
  rw [hqa] at this
  exact Bool.false_ne_true this

/-- Marking a currently available criteria exhausted strictly shrinks the
available list: the termination argument of `getNextSearchParams`. -/
theorem available_shrinks (lang : Option String) (seen : SeenRepositories)
    {c : SearchCriteria} (hmem : c ∈ availableCriterias lang seen) (d : SeenData) :
    (availableCriterias lang
        (sinsert seen (criteriaKey c) { d with exhausted := true })).length
      < (availableCriterias lang seen).length := by
  have hmem2 : c ∈ SEARCH_CRITERIAS.map (withLanguage lang) :=
    (List.mem_filter.mp hmem).1
  have hp : (!(isExhausted seen (criteriaKey c))) = true := (List.mem_filter.mp hmem).2
  have hq : (!(isExhausted (sinsert seen (criteriaKey c) { d with exhausted := true })
      (criteriaKey c))) = false := by
    simp [isExhausted_sinsert_self]
  refine length_filter_lt_of_flip ?_ hmem2 hp hq
  intro x hx hqx
  by_cases hkey : criteriaKey x = criteriaKey c
  · rw [hkey, isExhausted_sinsert_self] at hqx
    simp at hqx
  · rwa [isExhausted_sinsert_ne _ _ hkey] at hqx

/-- The result of one `getNextSearchParams` call: the (possibly mutated)
in-memory store, the `localStorage` cell, the remaining randomness oracle and
the selected `{ criteria, page }`. -/
structure NextParamsResult where
  seen : SeenRepositories
  storage : Option Json
  rand : List ℕ
  next : PageParam

/-- One round of the `getNextSearchParams` body, before any recursion:
either a result (`.inl`) or — when the randomly picked criteria turns out to
have every page of `1..min(totalPages, MAX_PAGES)` seen, is marked exhausted
and persisted — the arguments of the tail call (`.inr`). -/
def getNextSearchParamsStep (lang : Option String) (rand : List ℕ) (seen : SeenRepositories)
    (storage : Option Json) :
    NextParamsResult ⊕ (List ℕ × SeenRepositories × Option Json) :=
  let available := availableCriterias lang seen
  if hav : available = [] then
    .inl { seen := seen, storage := none, rand := rand,
           next := { criteria := withLanguage lang SEARCH_CRITERIAS.headI, page := 1 } }
  else
    let criteria := available.get
      ⟨rand.headI % available.length, Nat.mod_lt _ (List.length_pos.mpr hav)⟩
    let key := criteriaKey criteria
    match slookup seen key with
    | none =>
      .inl { seen := seen, storage := storage, rand := rand.tail,
             next := { criteria := criteria, page := 1 } }
    | some d =>
      if d.totalPages = none ∨ d.totalPages = some 0 then
        .inl { seen := seen, storage := storage, rand := rand.tail,
               next := { criteria := criteria, page := 1 } }
      else
        match (List.range' 1 (min (d.totalPages.getD 0) MAX_PAGES)).find?
            (fun p => !(d.seenPages.has p)) with
        | some p =>
          .inl { seen := seen, storage := storage, rand := rand.tail,
                 next := { criteria := criteria, page := p } }
        | none =>
          let seen' := sinsert seen key { d with exhausted := true }
          .inr (rand.tail, seen', some (encodeStore seen'))

/-- The recursion of `getNextSearchParams`, evaluated on fuel (the JavaScript
recursion needs no fuel; each round strictly shrinks the available list, and
the wrapper below supplies provably sufficient fuel). -/
def getNextSearchParamsGo (lang : Option String) :
    ℕ → List ℕ → SeenRepositories → Option Json → NextParamsResult
  | 0, rand, seen, _ =>
    -- Unreachable under the fuel bound (see `getNextSearchParamsGo_congr`).
    { seen := seen, storage := none, rand := rand,
      next := { criteria := withLanguage lang SEARCH_CRITERIAS.headI, page := 1 } }
  | fuel + 1, rand, seen, storage =>
    match getNextSearchParamsStep lang rand seen storage with
    | .inl r => r
    | .inr (rand', seen', storage') => getNextSearchParamsGo lang fuel rand' seen' storage'

/-- `getNextSearchParams` from the `useGitHub` hook.  Steps, as in the
source: filter the language-merged criteria space to non-exhausted entries;
if none remain, remove the persisted store (`localStorage.removeItem`) and
return page 1 of the first criteria; otherwise pick a uniformly random
candidate, return page 1 when its `totalPages` is falsy (`null`, `0`, or no
entry), else return the first page of `1..min(totalPages, MAX_PAGES)` not in
`seenPages`; if every page is seen, mark the entry exhausted, persist, and
recurse.  The recursion depth can never exceed the number of available
criteria (each round exhausts one), so supplying one more unit of fuel than
that evaluates the JavaScript recursion in full. -/
def getNextSearchParams (lang : Option String) (rand : List ℕ) (seen : SeenRepositories)
    (storage : Option Json) : NextParamsResult :=
  getNextSearchParamsGo lang ((availableCriterias lang seen).length + 1) rand seen storage

theorem getNextSearchParamsStep_inr {lang : Option String} {rand : List ℕ}
    {seen : SeenRepositories} {storage : Option Json}
    {rand' : List ℕ} {seen' : SeenRepositories} {storage' : Option Json}
    (h : getNextSearchParamsStep lang rand seen storage = .inr (rand', seen', storage')) :
    (availableCriterias lang seen').length < (availableCriterias lang seen).length := by
  unfold getNextSearchParamsStep at h
  dsimp only at h
  split at h
  · simp at h
  · rename_i hav
    split at h
    · simp at h
    · rename_i d hsd
      split at h
      · simp at h
      · split at h
        · simp at h
        · rename_i hfind
          rw [Sum.inr.injEq, Prod.mk.injEq, Prod.mk.injEq] at h
          obtain ⟨-, hseen, -⟩ := h
          subst hseen
          exact available_shrinks lang seen (List.get_mem _ _ _) d

/-- Any two sufficient fuel amounts evaluate the recursion identically: the
fuel is an evaluation device, not part of the modelled program. -/
theorem getNextSearchParamsGo_congr (lang : Option String) :
    ∀ fuel₁ fuel₂ : ℕ, ∀ (rand : List ℕ) (seen : SeenRepositories) (storage : Option Json),
      (availableCriterias lang seen).length < fuel₁ →
      (availableCriterias lang seen).length < fuel₂ →
      getNextSearchParamsGo lang fuel₁ rand seen storage
        = getNextSearchParamsGo lang fuel₂ rand seen storage := by
  intro fuel₁
  induction fuel₁ with
  | zero =>
    intro fuel₂ rand seen storage h1 _
    exact absurd h1 (Nat.not_lt_zero _)
  | succ f ih =>
    intro fuel₂ rand seen storage h1 h2
    cases fuel₂ with
    | zero => exact absurd h2 (Nat.not_lt_zero _)
    | succ f2 =>
      simp only [getNextSearchParamsGo]
      cases hstep : getNextSearchParamsStep lang rand seen storage with
      | inl r => rfl
      | inr args =>
        obtain ⟨rand', seen', storage'⟩ := args
        have hlt := getNextSearchParamsStep_inr hstep
        exact ih f2 _ _ _ (Nat.lt_of_lt_of_le hlt (Nat.lt_succ_iff.mp h1))
          (Nat.lt_of_lt_of_le hlt (Nat.lt_succ_iff.mp h2))

/-- The defining equation of `getNextSearchParams`, fuel eliminated: one
`getNextSearchParamsStep` round, recursing on its `.inr` outcome. -/
theorem getNextSearchParams_eq (lang : Option String) (rand : List ℕ)
    (seen : SeenRepositories) (storage : Option Json) :
    getNextSearchParams lang rand seen storage =
      match getNextSearchParamsStep lang rand seen storage with
      | .inl r => r
      | .inr (rand', seen', storage') => getNextSearchParams lang rand' seen' storage' := by
  unfold getNextSearchParams
  conv_lhs => rw [getNextSearchParamsGo]
  cases hstep : getNextSearchParamsStep lang rand seen storage with
  | inl r => rfl
  | inr args =>
    obtain ⟨rand', seen', storage'⟩ := args
    have hlt := getNextSearchParamsStep_inr hstep
    exact getNextSearchParamsGo_congr lang _ _ _ _ _ hlt (Nat.lt_succ_self _)

/-- `SearchResponse` from `src/lib/github.ts`; repository records are opaque
to the cursor and modelled by identifiers. -/
structure SearchResponse where
  total_count : ℕ
  items : List ℕ
deriving DecidableEq

/-- What the remote end would answer to one invocation of
`fetchRepositoriesPage`: a parsed body, a non-ok HTTP status, or a rejected
`fetch` promise (network-level error with its message). -/
inductive NetResult where
  | ok (total_count : ℕ) (items : List ℕ)
  | httpError (status : ℕ)
  | netError (msg : String)

/-- The pre-network rejection `new Error('Only first 1000 results are
available')` thrown when the requested page exceeds `MAX_PAGES`. -/
def pageCapError : JsError :=
  { className := "Error", message := "Only first 1000 results are available" }

/-- `RateLimitExceededError` as thrown on HTTP 403. -/
def rateLimitError : JsError :=
  { className := "RateLimitExceededError",
    message := "Rate limit exceeded. Please add a GitHub token for extended access or try again later." }

/-- `OnlyFirst1000ResultsError` as thrown on HTTP 422. -/
def onlyFirst1000Error : JsError :=
  { className := "OnlyFirst1000ResultsError",
    message := "Only first 1000 search results are available" }

/-- `InvalidTokenError` as thrown on HTTP 401. -/
def invalidTokenError : JsError :=
  { className := "InvalidTokenError",
    message := "Invalid token, please check your GitHub token and try again." }

/-- The catch-all `new Error('Failed to fetch repositories')` on any other
non-ok status. -/
def genericFetchError : JsError :=
  { className := "Error", message := "Failed to fetch repositories" }

/-- `fetchRepositoriesPage` from `src/lib/github.ts`: a page beyond
`MAX_PAGES` is rejected before any network call; otherwise the HTTP outcome
is mapped to the typed errors with their exact messages (403 →
`RateLimitExceededError`, 422 → `OnlyFirst1000ResultsError`, 401 →
`InvalidTokenError`, any other non-ok status → plain `Error`).  The
subscribers-count enrichment performed with a saved token only decorates the
items and absorbs its own failures, so it is not modelled. -/
def fetchRepositoriesPage (res : NetResult) (params : PageParam) :
    Except JsError SearchResponse :=
  if params.page > MAX_PAGES then
    .error pageCapError
  else
    match res with
    | .ok total_count items => .ok { total_count := total_count, items := items }
    | .httpError status =>
      if status = 403 then .error rateLimitError
      else if status = 422 then .error onlyFirst1000Error
      else if status = 401 then .error invalidTokenError
      else .error genericFetchError
    | .netError msg => .error { className := "TypeError", message := msg }

/-- The catch-clause classification in `tryFetchWithParams`:
`error instanceof Error && error.message.includes('Rate limit exceeded')`.
Only the message is consulted; the concrete `Error` subclass is not. -/
def isTerminalError (e : JsError) : Bool :=
  containsSub e.message "Rate limit exceeded"

/-- The `retry` predicate handed to `useInfiniteQuery` (also message-based). -/
def shouldRetry (failureCount : ℕ) (e : JsError) : Bool :=
  !(containsSub e.message "Rate limit exceeded") && decide (failureCount < 3)

/-- The page delivered to the query cache: the page's items, each tagged with
the criteria key, plus the sequential continuation `PageParam`. -/
structure QueryResponse where
  total_count : ℕ
  items : List (ℕ × String)
  nextPage : PageParam
deriving DecidableEq

/-- The mutable context a `tryFetchWithParams` run threads along: the
in-memory `seen` object, the `localStorage` cell, the remaining randomness
oracle, and the number of `fetchRepositoriesPage` invocations performed so
far (the index into the network oracle). -/
structure CursorState where
  seen : SeenRepositories
  storage : Option Json
  rand : List ℕ
  calls : ℕ

/-- `tryFetchWithParams` from the `useGitHub` hook, evaluated on fuel (the
JavaScript recursion is unbounded; fuel bounds the number of fetch
attempts, and exhausting it yields no outcome while still reporting the
in-flight state).  Branches, as in the source: a fetch error whose message
contains `'Rate limit exceeded'` is rethrown as is; any other error falls
back to `getNextSearchParams` and recurses; a response with zero
`total_count` stores (or keeps) the entry `seen[key] || { seenPages: {},
totalPages: 0, exhausted: true }`, persists, and recurses on a fresh
candidate; a response with results computes `totalPages =
min(ceil(total_count / 10), MAX_PAGES)`, adds the fetched page to
`seenPages`, recomputes `exhausted` against the freshly computed
`totalPages`, persists, and returns the tagged items with the sequential
continuation. -/
def tryFetchWithParams (net : ℕ → NetResult) (lang : Option String) :
    ℕ → CursorState → PageParam → Option (Except JsError QueryResponse) × CursorState
  | 0, st, _ => (none, st)
  | fuel + 1, st, params =>
    let key := criteriaKey params.criteria
    match fetchRepositoriesPage (net st.calls) params with
    | .error e =>
      if isTerminalError e then
        (some (.error e), { st with calls := st.calls + 1 })
      else
        let r := getNextSearchParams lang st.rand st.seen st.storage
        tryFetchWithParams net lang fuel
          { seen := r.seen, storage := r.storage, rand := r.rand, calls := st.calls + 1 }
          r.next
    | .ok resp =>
      if resp.total_count = 0 then
        let seenData := (slookup st.seen key).getD
          { seenPages := JsSet.empty, totalPages := some 0, exhausted := true }
        let seen' := sinsert st.seen key seenData
        let storage' := some (encodeStore seen')
        let r := getNextSearchParams lang st.rand seen' storage'
        tryFetchWithParams net lang fuel
          { seen := r.seen, storage := r.storage, rand := r.rand, calls := st.calls + 1 }
          r.next
      else
        let totalPages := min ((resp.total_count + 9) / 10) MAX_PAGES
        let seenData := (slookup st.seen key).getD
          { seenPages := JsSet.empty, totalPages := some totalPages, exhausted := false }
        let seenPages' := seenData.seenPages.add params.page
        let seenData' := { seenData with
          seenPages := seenPages',
          exhausted := decide (totalPages ≤ seenPages'.size) }
        let seen' := sinsert st.seen key seenData'
        (some (.ok
          { total_count := resp.total_count,
            items := resp.items.map fun repo => (repo, key),
            nextPage := { criteria := params.criteria, page := params.page + 1 } }),
         { seen := seen', storage := some (encodeStore seen'), rand := st.rand,
           calls := st.calls + 1 })

theorem decodeNats_map_num (l : List ℕ) : decodeNats (l.map Json.num) = some l := by
  induction l with
  | nil => rfl
  | cons x xs ih => simp [decodeNats, ih]

theorem decode_encode_seenData (d : SeenData) : decodeSeenData (encodeSeenData d) = some d := by
  obtain ⟨pages, tp, ex⟩ := d
  cases tp <;>
    · simp only [encodeSeenData, decodeSeenData, decodeNats_map_num]
      rw [jsSetOfList_nodup_eq pages.property]
      rfl

theorem decode_encode_store (seen : SeenRepositories) :
    decodeStore (encodeStore seen) = some seen := by
  rw [encodeStore, decodeStore]
  induction seen with
  | nil => rfl
  | cons kv rest ih =>
    obtain ⟨k, d⟩ := kv
    simp [decodeEntries, decode_encode_seenData, ih]

/-- Propagation case of `tryFetchWithParams`: an error whose message contains
the rate-limit marker is rethrown unchanged, with no other effect than the
performed fetch. -/
theorem tryFetch_terminal_eq (net : ℕ → NetResult) (lang : Option String) (fuel : ℕ)
    (st : CursorState) (params : PageParam) (e : JsError)
    (hfetch : fetchRepositoriesPage (net st.calls) params = .error e)
    (hterm : isTerminalError e = true) :
    tryFetchWithParams net lang (fuel + 1) st params =
      (some (.error e), { st with calls := st.calls + 1 }) := by
  simp only [tryFetchWithParams, hfetch, hterm, if_true]

/-- Fallback case of `tryFetchWithParams`: any other error is swallowed and
the run continues with the `getNextSearchParams` candidate. -/
theorem tryFetch_fallback_eq (net : ℕ → NetResult) (lang : Option String) (fuel : ℕ)
    (st : CursorState) (params : PageParam) (e : JsError)
    (hfetch : fetchRepositoriesPage (net st.calls) params = .error e)
    (hterm : isTerminalError e = false) :
    tryFetchWithParams net lang (fuel + 1) st params =
      (let r := getNextSearchParams lang st.rand st.seen st.storage
       tryFetchWithParams net lang fuel
         { seen := r.seen, storage := r.storage, rand := r.rand, calls := st.calls + 1 }
         r.next) := by
  simp only [tryFetchWithParams, hfetch, hterm, Bool.false_eq_true, if_false]

/-- If every fetch attempt yields a non-rate-limit error, every unit of fuel
is spent on one more fallback attempt and no outcome is ever produced: the
recursion of `tryFetchWithParams` is unbounded. -/
theorem tryFetch_allFail (net : ℕ → NetResult) (lang : Option String)
    (hnet : ∀ k p, ∃ e, fetchRepositoriesPage (net k) p = .error e ∧ isTerminalError e = false) :
    ∀ (fuel : ℕ) (st : CursorState) (params : PageParam),
      (tryFetchWithParams net lang fuel st params).1 = none ∧
      (tryFetchWithParams net lang fuel st params).2.calls = st.calls + fuel := by
  intro fuel
  induction fuel with
  | zero => intro st params; simp [tryFetchWithParams]
  | succ f ih =>
    intro st params
    obtain ⟨e, hfetch, hterm⟩ := hnet st.calls params
    rw [tryFetch_fallback_eq net lang f st params e hfetch hterm]
    dsimp only
    obtain ⟨h1, h2⟩ := ih
      { seen := (getNextSearchParams lang st.rand st.seen st.storage).seen,
        storage := (getNextSearchParams lang st.rand st.seen st.storage).storage,
        rand := (getNextSearchParams lang st.rand st.seen st.storage).rand,
        calls := st.calls + 1 }
      (getNextSearchParams lang st.rand st.seen st.storage).next
    refine ⟨h1, ?_⟩
    rw [h2]
    dsimp only
    omega

/-- Whether `page` is in `seenPages` of the entry stored under `key` (a
missing entry has no seen pages). -/
def pageSeenIn (seen : SeenRepositories) (key : String) (page : ℕ) : Bool :=
  match slookup seen key with
  | some d => d.seenPages.has page
  | none => false

/-- Every non-exhausted entry carries a known, non-zero `totalPages`.  A
freshly created entry satisfies this (a new success entry gets the freshly
computed `totalPages ≥ 1`, and the zero-result default is exhausted), but not
every cursor-written store does: a stale zero-result entry still present in
the in-memory snapshot after an epoch reset is revived by a later successful
fetch with its stored `totalPages 0` kept while `exhausted` is recomputed
against the fresh page count — see `revived_zero_entry_reseen`. -/
def WellFormedStore (seen : SeenRepositories) : Prop :=
  ∀ k d, slookup seen k = some d → d.exhausted = false →
    ∃ n, d.totalPages = some n ∧ 0 < n

/-- Shape of a recursive `getNextSearchParamsStep` outcome: some currently
stored entry was marked exhausted in place. -/
theorem getNextSearchParamsStep_inr_shape {lang : Option String} {rand : List ℕ}
    {seen : SeenRepositories} {storage : Option Json}
    {rand' : List ℕ} {seen' : SeenRepositories} {storage' : Option Json}
    (h : getNextSearchParamsStep lang rand seen storage = .inr (rand', seen', storage')) :
    ∃ key d, slookup seen key = some d ∧
      seen' = sinsert seen key { d with exhausted := true } := by
  unfold getNextSearchParamsStep at h
  dsimp only at h
  split at h
  · simp at h
  · split at h
    · simp at h
    · rename_i d hsd
      split at h
      · simp at h
      · split at h
        · simp at h
        · rw [Sum.inr.injEq, Prod.mk.injEq, Prod.mk.injEq] at h
          obtain ⟨-, hseen, -⟩ := h
          exact ⟨_, d, hsd, hseen.symm⟩

/-- A non-recursive `getNextSearchParamsStep` outcome on a well-formed store
either picks an unseen page or is the all-exhausted reset. -/
theorem getNextSearchParamsStep_inl_no_reseen {lang : Option String} {rand : List ℕ}
    {seen : SeenRepositories} {storage : Option Json} {r : NextParamsResult}
    (hwf : WellFormedStore seen)
    (h : getNextSearchParamsStep lang rand seen storage = .inl r) :
    pageSeenIn r.seen (criteriaKey r.next.criteria) r.next.page = false
    ∨ (r.storage = none ∧ r.seen = seen ∧
       r.next = { criteria := withLanguage lang SEARCH_CRITERIAS.headI, page := 1 } ∧
       ∀ c ∈ SEARCH_CRITERIAS.map (withLanguage lang),
         isExhausted seen (criteriaKey c) = true) := by
  unfold getNextSearchParamsStep at h
  dsimp only at h
  split at h
  · rename_i hav
    rw [Sum.inl.injEq] at h
    subst h
    right
    refine ⟨rfl, rfl, rfl, ?_⟩
    intro c hc
    have := List.filter_eq_nil_iff.mp hav c hc
    simpa using this
  · rename_i hav
    split at h
    · rename_i hsd
      rw [Sum.inl.injEq] at h
      subst h
      left
      simp only [pageSeenIn, hsd]
    · rename_i d hsd
      split at h
      · rename_i hfalsy
        exfalso
        have hmem : (availableCriterias lang seen).get
            ⟨rand.headI % (availableCriterias lang seen).length,
             Nat.mod_lt _ (List.length_pos.mpr hav)⟩ ∈ availableCriterias lang seen :=
          List.get_mem _ _ _
        have hpred := (List.mem_filter.mp hmem).2
        rw [isExhausted, hsd] at hpred
        have hex : d.exhausted = false := by simpa using hpred
        obtain ⟨n, hn, hpos⟩ := hwf _ d hsd hex
        rcases hfalsy with hnone | hzero
        · rw [hn] at hnone; exact Option.noConfusion hnone
        · rw [hn] at hzero
          have : n = 0 := by injection hzero
          omega
      · split at h
        · rename_i p hfind
          rw [Sum.inl.injEq] at h
          subst h
          left
          have hp := List.find?_some hfind
          have : d.seenPages.has p = false := by simpa using hp
          simp only [pageSeenIn]
          rw [hsd]
          exact this
        · simp at h

/-- Marking one entry exhausted preserves store well-formedness. -/
theorem wellFormed_sinsert_exhausted {seen : SeenRepositories} (hwf : WellFormedStore seen)
    (key : String) (d : SeenData) :
    WellFormedStore (sinsert seen key { d with exhausted := true }) := by
  intro k d' hk hex
  by_cases hkey : k = key
  · subst hkey
    rw [slookup_sinsert_self] at hk
    injection hk with hk
    rw [← hk] at hex
    simp at hex
  · rw [slookup_sinsert_ne _ _ hkey] at hk
    exact hwf k d' hk hex

/-- On a well-formed store, `getNextSearchParams` either returns a page not
in the selected criteria's `seenPages`, or takes the all-exhausted reset
(clearing the persisted store and returning page 1 of the first criteria).
Strong induction over the number of available criteria. -/
theorem selectNext_no_reseen_aux (lang : Option String) :
    ∀ (M : ℕ) (rand : List ℕ) (seen : SeenRepositories) (storage : Option Json),
      (availableCriterias lang seen).length ≤ M → WellFormedStore seen →
      pageSeenIn (getNextSearchParams lang rand seen storage).seen
        (criteriaKey (getNextSearchParams lang rand seen storage).next.criteria)
        (getNextSearchParams lang rand seen storage).next.page = false
      ∨ ((getNextSearchParams lang rand seen storage).storage = none ∧
         (getNextSearchParams lang rand seen storage).next =
           { criteria := withLanguage lang SEARCH_CRITERIAS.headI, page := 1 } ∧
         ∀ c ∈ SEARCH_CRITERIAS.map (withLanguage lang),
           isExhausted (getNextSearchParams lang rand seen storage).seen
             (criteriaKey c) = true) := by
  intro M
  induction M with
  | zero =>
    intro rand seen storage hlen hwf
    have hav : availableCriterias lang seen = [] :=
      List.length_eq_zero.mp (Nat.le_zero.mp hlen)
    have hstep : getNextSearchParamsStep lang rand seen storage =
        .inl { seen := seen, storage := none, rand := rand,
               next := { criteria := withLanguage lang SEARCH_CRITERIAS.headI, page := 1 } } := by
      unfold getNextSearchParamsStep
      dsimp only
      rw [dif_pos hav]
    rw [getNextSearchParams_eq, hstep]
    dsimp only
    rcases getNextSearchParamsStep_inl_no_reseen hwf hstep with h | ⟨h1, h2, h3, h4⟩
    · exact Or.inl h
    · exact Or.inr ⟨h1, h3, h4⟩
  | succ m ih =>
    intro rand seen storage hlen hwf
    rw [getNextSearchParams_eq]
    cases hstep : getNextSearchParamsStep lang rand seen storage with
    | inl r =>
      dsimp only
      rcases getNextSearchParamsStep_inl_no_reseen hwf hstep with h | ⟨h1, h2, h3, h4⟩
      · exact Or.inl h
      · right
        refine ⟨h1, h3, ?_⟩
        simp only [h2]
        exact h4
    | inr args =>
      obtain ⟨rand', seen', storage'⟩ := args
      dsimp only
      obtain ⟨key, d, hsd, hshape⟩ := getNextSearchParamsStep_inr_shape hstep
      have hwf' : WellFormedStore seen' := hshape ▸ wellFormed_sinsert_exhausted hwf key d
      have hlt := getNextSearchParamsStep_inr hstep
      exact ih rand' seen' storage' (by omega) hwf'

/-- The 403 outcome of a page within the cap is the rate-limit error. -/
theorem fetch_403 (params : PageParam) (hpage : params.page ≤ MAX_PAGES) :
    fetchRepositoriesPage (.httpError 403) params = .error rateLimitError := by
  simp [fetchRepositoriesPage, Nat.not_lt.mpr hpage]

/-- The 401 outcome of a page within the cap is the invalid-token error. -/
theorem fetch_401 (params : PageParam) (hpage : params.page ≤ MAX_PAGES) :
    fetchRepositoriesPage (.httpError 401) params = .error invalidTokenError := by
  simp [fetchRepositoriesPage, Nat.not_lt.mpr hpage]

/-- A parsed response within the cap is returned as is. -/
theorem fetch_ok (params : PageParam) (hpage : params.page ≤ MAX_PAGES)
    (total_count : ℕ) (items : List ℕ) :
    fetchRepositoriesPage (.ok total_count items) params =
      .ok { total_count := total_count, items := items } := by
  simp [fetchRepositoriesPage, Nat.not_lt.mpr hpage]

/-- Is the run's outcome a delivered page (`.ok`)? -/
def resultIsOk : Option (Except JsError QueryResponse) → Bool
  | some (.ok _) => true
  | _ => false

/-- The network oracle of the C1 counterexample run: the first fetch is
answered with HTTP 401 (invalid token), the second with a 25-result page. -/
def netInvalidThenOk : ℕ → NetResult :=
  fun k => if k = 0 then .httpError 401 else .ok 25 [7]

/-- C1, counterexample: with an empty store, an `InvalidToken` failure on the
first fetch and a successful second fetch, `tryFetchWithParams` returns the
second fetch's page — it neither propagates the `InvalidTokenError` nor
leaves the store unmutated (one entry is created) nor refrains from trying a
different candidate (a second fetch is performed). -/
theorem invalidToken_not_propagated_cex :
    resultIsOk (tryFetchWithParams netInvalidThenOk none 2
      { seen := [], storage := none, rand := [], calls := 0 }
      { criteria := { stars := "700...2000" }, page := 1 }).1 = true
    ∧ (tryFetchWithParams netInvalidThenOk none 2
      { seen := [], storage := none, rand := [], calls := 0 }
      { criteria := { stars := "700...2000" }, page := 1 }).2.calls = 2
    ∧ (tryFetchWithParams netInvalidThenOk none 2
      { seen := [], storage := none, rand := [], calls := 0 }
      { criteria := { stars := "700...2000" }, page := 1 }).2.seen.length = 1 := by
  refine ⟨?_, ?_, ?_⟩ <;> rfl

/-- C1, amended: an `InvalidToken` failure (HTTP 401) is not terminal.
`tryFetchWithParams` swallows it, selects another candidate through
`getNextSearchParams`, and resolves that candidate instead; only errors whose
message contains `'Rate limit exceeded'` propagate. -/
theorem invalidToken_falls_back (net : ℕ → NetResult) (lang : Option String) (fuel : ℕ)
    (st : CursorState) (params : PageParam)
    (hpage : params.page ≤ MAX_PAGES) (hnet : net st.calls = .httpError 401) :
    tryFetchWithParams net lang (fuel + 1) st params =
      (let r := getNextSearchParams lang st.rand st.seen st.storage
       tryFetchWithParams net lang fuel
         { seen := r.seen, storage := r.storage, rand := r.rand, calls := st.calls + 1 }
         r.next) := by
  refine tryFetch_fallback_eq net lang fuel st params invalidTokenError ?_ (by decide)
  rw [hnet]
  exact fetch_401 params hpage

/-- Witness for `invalidToken_falls_back` at a concrete input. -/
theorem invalidToken_falls_back_witness :
    (1 : ℕ) ≤ MAX_PAGES ∧
    tryFetchWithParams netInvalidThenOk none (1 + 1)
      { seen := [], storage := none, rand := [], calls := 0 }
      { criteria := { stars := "700...2000" }, page := 1 } =
      (let r := getNextSearchParams none [] [] none
       tryFetchWithParams netInvalidThenOk none 1
         { seen := r.seen, storage := r.storage, rand := r.rand, calls := 0 + 1 }
         r.next) :=
  ⟨by decide,
   invalidToken_falls_back netInvalidThenOk none 1
     { seen := [], storage := none, rand := [], calls := 0 }
     { criteria := { stars := "700...2000" }, page := 1 } (by decide) rfl⟩

/-- The always-failing network oracle of the C2 refutation: every fetch is
rejected at the network level. -/
def netAlwaysFails : ℕ → NetResult := fun _ => .netError "network down"

/-- Every `netAlwaysFails` attempt yields a non-terminal error (either the
pre-network page-cap rejection or the generic fetch failure). -/
theorem netAlwaysFails_nonterminal :
    ∀ (k : ℕ) (p : PageParam), ∃ e,
      fetchRepositoriesPage (netAlwaysFails k) p = .error e ∧ isTerminalError e = false := by
  intro k p
  by_cases hp : p.page > MAX_PAGES
  · exact ⟨pageCapError, by simp [fetchRepositoriesPage, hp], by decide⟩
  · exact ⟨{ className := "TypeError", message := "network down" },
      by simp [fetchRepositoriesPage, netAlwaysFails, hp], by decide⟩

/-- C2, counterexample: `SEARCH_CRITERIAS` has 26 entries, yet a run granted
27 fetch attempts (one initial plus 26 fallbacks, i.e. one more than
|CriteriaSpace|) under an always-failing oracle performs all 27 attempts and
produces no outcome at all — the error is not propagated once the criteria
space has been cycled through, contradicting the claimed bound. -/
theorem allFail_no_propagation_cex :
    SEARCH_CRITERIAS.length = 26
    ∧ (tryFetchWithParams netAlwaysFails none 27
        { seen := [], storage := none, rand := [], calls := 0 }
        { criteria := { stars := "700...2000" }, page := 1 }).1 = none
    ∧ (tryFetchWithParams netAlwaysFails none 27
        { seen := [], storage := none, rand := [], calls := 0 }
        { criteria := { stars := "700...2000" }, page := 1 }).2.calls = 27 := by
  refine ⟨by decide, ?_, ?_⟩
  · exact (tryFetch_allFail netAlwaysFails none netAlwaysFails_nonterminal 27
      { seen := [], storage := none, rand := [], calls := 0 }
      { criteria := { stars := "700...2000" }, page := 1 }).1
  · exact (tryFetch_allFail netAlwaysFails none netAlwaysFails_nonterminal 27
      { seen := [], storage := none, rand := [], calls := 0 }
      { criteria := { stars := "700...2000" }, page := 1 }).2

/-- C2, amended: the fallback recursion of `tryFetchWithParams` is unbounded,
not capped at |CriteriaSpace|.  When every attempted fetch fails with a
non-rate-limit error, no amount of fuel produces an outcome: each unit of
fuel is spent on one more fetch attempt (the catch clause never marks a
criteria exhausted, so `getNextSearchParams` always supplies a fresh
candidate), and the error never propagates. -/
theorem allFail_recursion_unbounded (net : ℕ → NetResult) (lang : Option String)
    (hnet : ∀ (k : ℕ) (p : PageParam), ∃ e,
      fetchRepositoriesPage (net k) p = .error e ∧ isTerminalError e = false)
    (fuel : ℕ) (st : CursorState) (params : PageParam) :
    (tryFetchWithParams net lang fuel st params).1 = none ∧
    (tryFetchWithParams net lang fuel st params).2.calls = st.calls + fuel :=
  tryFetch_allFail net lang hnet fuel st params

/-- Witness for `allFail_recursion_unbounded` at a concrete input. -/
theorem allFail_recursion_unbounded_witness :
    (tryFetchWithParams netAlwaysFails none 30
      { seen := [], storage := none, rand := [], calls := 0 }
      { criteria := { stars := ">50000" }, page := 1 }).1 = none ∧
    (tryFetchWithParams netAlwaysFails none 30
      { seen := [], storage := none, rand := [], calls := 0 }
      { criteria := { stars := ">50000" }, page := 1 }).2.calls = 0 + 30 :=
  allFail_recursion_unbounded netAlwaysFails none netAlwaysFails_nonterminal 30
    { seen := [], storage := none, rand := [], calls := 0 }
    { criteria := { stars := ">50000" }, page := 1 }

/-- C3: a rate-limit failure (HTTP 403) is rethrown unchanged: the run ends
with exactly the `RateLimitExceededError`, the in-memory store, the persisted
cell and the randomness oracle are untouched (in particular
`getNextSearchParams` is not invoked — no random pick is consumed), and only
the fetch counter advances. -/
theorem rateLimit_propagates_unchanged (net : ℕ → NetResult) (lang : Option String)
    (fuel : ℕ) (st : CursorState) (params : PageParam)
    (hpage : params.page ≤ MAX_PAGES) (hnet : net st.calls = .httpError 403) :
    tryFetchWithParams net lang (fuel + 1) st params =
      (some (.error rateLimitError),
       { seen := st.seen, storage := st.storage, rand := st.rand, calls := st.calls + 1 }) := by
  have h := tryFetch_terminal_eq net lang fuel st params rateLimitError
    (by rw [hnet]; exact fetch_403 params hpage) (by decide)
  rw [h]

/-- Witness for `rateLimit_propagates_unchanged` at a concrete input. -/
theorem rateLimit_propagates_unchanged_witness :
    (1 : ℕ) ≤ MAX_PAGES ∧
    tryFetchWithParams (fun _ => .httpError 403) none (4 + 1)
      { seen := [], storage := none, rand := [3, 1], calls := 0 }
      { criteria := { stars := ">50000" }, page := 1 } =
      (some (.error rateLimitError),
       { seen := [], storage := none, rand := [3, 1], calls := 0 + 1 }) :=
  ⟨by decide,
   rateLimit_propagates_unchanged (fun _ => .httpError 403) none 4
     { seen := [], storage := none, rand := [3, 1], calls := 0 }
     { criteria := { stars := ">50000" }, page := 1 } (by decide) rfl⟩

/-- A store whose single entry (for the first criteria) has `seenPages = {1}`
but `totalPages = null`: the probe result was never recorded. -/
def storeNullTotal : SeenRepositories :=
  [(criteriaKey { stars := "700...2000" },
    { seenPages := ⟨[1], by decide⟩, totalPages := none, exhausted := false })]

/-- C4, counterexample: on `storeNullTotal` (entry not exhausted, its
`seenPages` containing 1, `totalPages` falsy), `getNextSearchParams` picks
that criteria and returns page 1 — a page already in that criteria's
`seenPages` — without the store being all-exhausted or reset (the persisted
cell is returned untouched, not cleared). -/
theorem selectNext_reseen_cex :
    (getNextSearchParams none [] storeNullTotal (saveSeenRepositories storeNullTotal)).next.page = 1
    ∧ pageSeenIn
        (getNextSearchParams none [] storeNullTotal (saveSeenRepositories storeNullTotal)).seen
        (criteriaKey
          (getNextSearchParams none [] storeNullTotal
            (saveSeenRepositories storeNullTotal)).next.criteria) 1 = true
    ∧ isExhausted
        (getNextSearchParams none [] storeNullTotal (saveSeenRepositories storeNullTotal)).seen
        (criteriaKey
          (getNextSearchParams none [] storeNullTotal
            (saveSeenRepositories storeNullTotal)).next.criteria) = false
    ∧ (getNextSearchParams none [] storeNullTotal (saveSeenRepositories storeNullTotal)).storage
        = saveSeenRepositories storeNullTotal := by
  refine ⟨?_, ?_, ?_, ?_⟩ <;> rfl

/-- C4, amended: on a well-formed store — every non-exhausted entry has a
known non-zero `totalPages` — `getNextSearchParams` never returns a page
present in the selected criteria's `seenPages`, except through the
all-exhausted reset branch, which clears the persisted store and returns
page 1 of the first criteria.  The hypothesis is needed: outside it the
falsy-`totalPages` probe returns page 1 without consulting `seenPages` (see
the counterexample), and the cursor itself can write such stores by reviving
a stale zero-result entry after an epoch reset (see
`revived_zero_entry_reseen`). -/
theorem selectNext_no_reseen (lang : Option String) (rand : List ℕ)
    (seen : SeenRepositories) (storage : Option Json) (hwf : WellFormedStore seen) :
    pageSeenIn (getNextSearchParams lang rand seen storage).seen
      (criteriaKey (getNextSearchParams lang rand seen storage).next.criteria)
      (getNextSearchParams lang rand seen storage).next.page = false
    ∨ ((getNextSearchParams lang rand seen storage).storage = none ∧
       (getNextSearchParams lang rand seen storage).next =
         { criteria := withLanguage lang SEARCH_CRITERIAS.headI, page := 1 } ∧
       ∀ c ∈ SEARCH_CRITERIAS.map (withLanguage lang),
         isExhausted (getNextSearchParams lang rand seen storage).seen (criteriaKey c) = true) :=
  selectNext_no_reseen_aux lang (availableCriterias lang seen).length rand seen storage
    le_rfl hwf

/-- Witness for `selectNext_no_reseen` at a concrete input (the empty store). -/
theorem selectNext_no_reseen_witness :
    WellFormedStore [] ∧
    (pageSeenIn (getNextSearchParams none [] [] none).seen
      (criteriaKey (getNextSearchParams none [] [] none).next.criteria)
      (getNextSearchParams none [] [] none).next.page = false
    ∨ ((getNextSearchParams none [] [] none).storage = none ∧
       (getNextSearchParams none [] [] none).next =
         { criteria := withLanguage none SEARCH_CRITERIAS.headI, page := 1 } ∧
       ∀ c ∈ SEARCH_CRITERIAS.map (withLanguage none),
         isExhausted (getNextSearchParams none [] [] none).seen (criteriaKey c) = true)) := by
  have hwf : WellFormedStore [] := by
    intro k d hk
    simp [slookup] at hk
  exact ⟨hwf, selectNext_no_reseen none [] [] none hwf⟩

/-- The first criteria of the default space. -/
def criteria700 : SearchCriteria := { stars := "700...2000" }

/-- A store already holding progress for `criteria700`: page 1 seen,
3 pages known, not exhausted. -/
def storeWithProgress : SeenRepositories :=
  [(criteriaKey criteria700,
    { seenPages := ⟨[1], by decide⟩, totalPages := some 3, exhausted := false })]

/-- C5, counterexample: a zero-`total_count` fetch for a criteria that
already has a progress entry leaves that entry exactly as it was (the `||`
default only applies to missing entries), instead of setting it to
`{ seenPages: {}, totalPages: 0, exhausted: true }`; the criteria stays
unexhausted and can be picked again. -/
theorem zeroResult_existing_entry_cex :
    slookup (tryFetchWithParams (fun _ => .ok 0 []) none 1
        { seen := storeWithProgress, storage := saveSeenRepositories storeWithProgress,
          rand := [], calls := 0 }
        { criteria := criteria700, page := 2 }).2.seen (criteriaKey criteria700)
      = some { seenPages := ⟨[1], by decide⟩, totalPages := some 3, exhausted := false }
    ∧ (some ({ seenPages := ⟨[1], by decide⟩, totalPages := some 3, exhausted := false } : SeenData)
        ≠ some ({ seenPages := JsSet.empty, totalPages := some 0, exhausted := true } : SeenData))
    ∧ isExhausted (tryFetchWithParams (fun _ => .ok 0 []) none 1
        { seen := storeWithProgress, storage := saveSeenRepositories storeWithProgress,
          rand := [], calls := 0 }
        { criteria := criteria700, page := 2 }).2.seen (criteriaKey criteria700) = false := by
  refine ⟨by rfl, by decide, by rfl⟩

/-- C5, amended: a zero-`total_count` fetch for a criteria with no existing
progress entry stores `{ seenPages: {}, totalPages: 0, exhausted: true }`
under its key, persists the store, and recurses into `getNextSearchParams`
plus `tryFetchWithParams` with the new candidate (a criteria that already has
an entry keeps it unchanged — see the counterexample). -/
theorem zeroResult_fresh_marks_exhausted (net : ℕ → NetResult) (lang : Option String)
    (fuel : ℕ) (st : CursorState) (params : PageParam) (items : List ℕ)
    (hpage : params.page ≤ MAX_PAGES)
    (hfresh : slookup st.seen (criteriaKey params.criteria) = none)
    (hnet : net st.calls = .ok 0 items) :
    tryFetchWithParams net lang (fuel + 1) st params =
      (let seen' := sinsert st.seen (criteriaKey params.criteria)
         { seenPages := JsSet.empty, totalPages := some 0, exhausted := true }
       let r := getNextSearchParams lang st.rand seen' (some (encodeStore seen'))
       tryFetchWithParams net lang fuel
         { seen := r.seen, storage := r.storage, rand := r.rand, calls := st.calls + 1 }
         r.next) := by
  have hfetch : fetchRepositoriesPage (net st.calls) params =
      .ok { total_count := 0, items := items } := by
    rw [hnet]; exact fetch_ok params hpage 0 items
  simp only [tryFetchWithParams, hfetch, hfresh, if_pos, Option.getD_none]

/-- Witness for `zeroResult_fresh_marks_exhausted` at a concrete input. -/
theorem zeroResult_fresh_marks_exhausted_witness :
    (1 : ℕ) ≤ MAX_PAGES ∧
    slookup ([] : SeenRepositories) (criteriaKey criteria700) = none ∧
    tryFetchWithParams (fun _ => .ok 0 []) none (0 + 1)
      { seen := [], storage := none, rand := [], calls := 0 }
      { criteria := criteria700, page := 1 } =
      (let seen' := sinsert [] (criteriaKey criteria700)
         { seenPages := JsSet.empty, totalPages := some 0, exhausted := true }
       let r := getNextSearchParams none [] seen' (some (encodeStore seen'))
       tryFetchWithParams (fun _ => .ok 0 []) none 0
         { seen := r.seen, storage := r.storage, rand := r.rand, calls := 0 + 1 }
         r.next) :=
  ⟨by decide, rfl,
   zeroResult_fresh_marks_exhausted (fun _ => .ok 0 []) none 0
     { seen := [], storage := none, rand := [], calls := 0 }
     { criteria := criteria700, page := 1 } [] (by decide) rfl rfl⟩

/-- C6: when every criteria of the (language-merged) space is exhausted in
the store, `getNextSearchParams` removes the persisted store
(`localStorage.removeItem`, modelled as the cell becoming `none`) and
returns page 1 of the first criteria of the space; the in-memory snapshot it
was handed is returned unchanged and no random pick is consumed. -/
theorem selectNext_all_exhausted_resets (lang : Option String) (rand : List ℕ)
    (seen : SeenRepositories) (storage : Option Json)
    (hall : ∀ c ∈ SEARCH_CRITERIAS.map (withLanguage lang),
      isExhausted seen (criteriaKey c) = true) :
    getNextSearchParams lang rand seen storage =
      { seen := seen, storage := none, rand := rand,
        next := { criteria := withLanguage lang SEARCH_CRITERIAS.headI, page := 1 } } := by
  have hav : availableCriterias lang seen = [] := by
    rw [availableCriterias, List.filter_eq_nil_iff]
    intro c hc
    simp [hall c hc]
  have hstep : getNextSearchParamsStep lang rand seen storage =
      .inl { seen := seen, storage := none, rand := rand,
             next := { criteria := withLanguage lang SEARCH_CRITERIAS.headI, page := 1 } } := by
    unfold getNextSearchParamsStep
    dsimp only
    rw [dif_pos hav]
  rw [getNextSearchParams_eq, hstep]

/-- A store in which every criteria of the default space is exhausted. -/
def storeAllExhausted : SeenRepositories :=
  (SEARCH_CRITERIAS.map (withLanguage none)).map
    (fun c => (criteriaKey c,
      { seenPages := JsSet.empty, totalPages := some 1, exhausted := true }))

/-- Witness for `selectNext_all_exhausted_resets` at a concrete input. -/
theorem selectNext_all_exhausted_resets_witness :
    (∀ c ∈ SEARCH_CRITERIAS.map (withLanguage none),
      isExhausted storeAllExhausted (criteriaKey c) = true) ∧
    getNextSearchParams none [2] storeAllExhausted (saveSeenRepositories storeAllExhausted) =
      { seen := storeAllExhausted, storage := none, rand := [2],
        next := { criteria := withLanguage none SEARCH_CRITERIAS.headI, page := 1 } } := by
  have hall : ∀ c ∈ SEARCH_CRITERIAS.map (withLanguage none),
      isExhausted storeAllExhausted (criteriaKey c) = true := by decide
  exact ⟨hall, selectNext_all_exhausted_resets none [2] storeAllExhausted
    (saveSeenRepositories storeAllExhausted) hall⟩

/-- C7, counterexample: `JSON.stringify` depends on property insertion
order.  Two objects holding the same `(field, value)` pairs (a permutation
of one another) but inserted in different orders serialize to different
strings, so the canonical-key property does not hold of the serialization
mechanism for arbitrarily constructed records. -/
theorem stringify_order_dependent_cex :
    List.Perm
      ([("stars", some "700...2000"), ("language", some "python")] :
        List (String × Option String))
      [("language", some "python"), ("stars", some "700...2000")]
    ∧ stringifyStringFields [("stars", some "700...2000"), ("language", some "python")]
      ≠ stringifyStringFields [("language", some "python"), ("stars", some "700...2000")] := by
  exact ⟨by decide, by decide⟩

/-- C7, amended: every construction site of this program inserts the fields
in the one fixed order `stars`, `created`, `language` (the generator's
literals, spread before the language merge), so the SeenStore key is a
function of the field values alone: two program-built criteria with equal
fields get the identical key. -/
theorem criteriaKey_determined_by_fields (c : SearchCriteria) (s : String)
    (cr l : Option String) (hs : c.stars = s) (hcr : c.created = cr) (hl : c.language = l) :
    criteriaKey c =
      stringifyStringFields [("stars", some s), ("created", cr), ("language", l)] := by
  subst hs hcr hl
  rfl

/-- Witness for `criteriaKey_determined_by_fields` at a concrete input. -/
theorem criteriaKey_determined_by_fields_witness :
    criteriaKey { stars := ">50000", language := some "python" } =
      stringifyStringFields
        [("stars", some ">50000"), ("created", none), ("language", some "python")] :=
  criteriaKey_determined_by_fields
    { stars := ">50000", language := some "python" } ">50000" none (some "python") rfl rfl rfl

/-- A stored value that is store-shaped JSON but whose `seenPages` is a
number: the reviver's `new Set(5)` raises a `TypeError` in the source, so
`loadSeenRepositories` raises instead of returning a store. -/
def malformedStored : Json :=
  Json.obj [("entry", Json.obj [("seenPages", Json.num 5), ("totalPages", Json.null),
    ("exhausted", Json.bool false)])]

/-- C8, counterexample: on a malformed stored value, `loadSeenRepositories`
does not return the empty store — it produces no store at all (in the
source, the reviver's `new Set(5)` throws and `load` has no error handling,
so the exception escapes; `JSON.parse` on corrupt text likewise throws). -/
theorem load_malformed_cex :
    loadSeenRepositories (some malformedStored) = none ∧
    loadSeenRepositories (some malformedStored) ≠ some [] :=
  ⟨rfl, by decide⟩

/-- C8, amended: `loadSeenRepositories` returns the empty store when nothing
is persisted, and every store it does deserialize has each `seenPages`
reconstituted as a true set — duplicate-free and membership-equal to the
stored array (`new Set(value)` in the reviver).  When deserialization fails
the code raises instead of returning the empty store (see the
counterexample). -/
theorem load_reconstitutes_sets :
    loadSeenRepositories none = some []
    ∧ (∀ (stored : Json) (s : SeenRepositories) (k : String) (d : SeenData),
        loadSeenRepositories (some stored) = some s → slookup s k = some d →
        d.seenPages.val.Nodup)
    ∧ (∀ (pages : List ℕ) (tp : Json) (ex : Bool) (d : SeenData),
        decodeSeenData (.obj [("seenPages", .arr (pages.map Json.num)),
          ("totalPages", tp), ("exhausted", .bool ex)]) = some d →
        (∀ p : ℕ, p ∈ d.seenPages.val ↔ p ∈ pages) ∧ d.seenPages.val.Nodup) := by
  refine ⟨rfl, ?_, ?_⟩
  · intro stored s k d _ _
    exact d.seenPages.property
  · intro pages tp ex d hd
    cases tp <;> simp only [decodeSeenData, decodeNats_map_num] at hd <;>
      first
        | exact Option.noConfusion hd
        | (injection hd with hd
           subst hd
           exact ⟨fun p => mem_jsSetOfList, (jsSetOfList pages).property⟩)

/-- The single entry of `storeWithProgress`. -/
def seenDataPage1 : SeenData :=
  { seenPages := ⟨[1], by decide⟩, totalPages := some 3, exhausted := false }

/-- The progress record decoded from the stored array `[1, 3, 5]`. -/
def seenData135 : SeenData :=
  { seenPages := jsSetOfList [1, 3, 5], totalPages := some 7, exhausted := false }

/-- Witness for `load_reconstitutes_sets` at concrete inputs: the
statement's quantified parts instantiated at the store
`storeWithProgress` and at the stored array `[1, 3, 5]`. -/
theorem load_reconstitutes_sets_witness :
    seenDataPage1.seenPages.val.Nodup
    ∧ ((∀ p : ℕ, p ∈ seenData135.seenPages.val ↔ p ∈ [1, 3, 5])
       ∧ seenData135.seenPages.val.Nodup) :=
  ⟨(load_reconstitutes_sets).2.1 (encodeStore storeWithProgress) storeWithProgress
      (criteriaKey criteria700) seenDataPage1 rfl rfl,
   (load_reconstitutes_sets).2.2 [1, 3, 5] (Json.num 7) false seenData135 rfl⟩

/-- A store with `seenPages = {1, 3, 5}`, the spec's round-trip example. -/
def store135 : SeenRepositories :=
  [(criteriaKey criteria700,
    { seenPages := ⟨[1, 3, 5], by decide⟩, totalPages := some 7, exhausted := false })]

/-- C9: saving a store (`JSON.stringify` with the `Set → Array` replacer)
and loading it back (`JSON.parse` with the `new Set(value)` reviver) yields
an equal store for every store; in particular the `{1, 3, 5}` example
round-trips to the membership-equal set, not to a mere ordered sequence. -/
theorem seenStore_roundtrip :
    (∀ seen : SeenRepositories,
      loadSeenRepositories (saveSeenRepositories seen) = some seen)
    ∧ loadSeenRepositories (saveSeenRepositories store135) = some store135 := by
  constructor
  · intro seen
    show decodeStore (encodeStore seen) = some seen
    exact decode_encode_store seen
  · rfl

/-- C10: the propagate-vs-fallback decision of `tryFetchWithParams` is a
function of the error's message alone — whether it contains the substring
`'Rate limit exceeded'` — never of the error's class: same message, same
decision, whatever the class; an error with the marker is rethrown and any
other is swallowed into the fallback; concretely, the invalid-token message,
the pre-network page-cap message, the 422 message and the generic failure
message all lack the marker (hence fall back), while the 403 message has it
(hence is terminal). -/
theorem fallback_decision_message_only :
    (∀ c₁ c₂ m : String,
      isTerminalError { className := c₁, message := m }
        = isTerminalError { className := c₂, message := m })
    ∧ (∀ (net : ℕ → NetResult) (lang : Option String) (fuel : ℕ) (st : CursorState)
         (params : PageParam) (e : JsError),
        fetchRepositoriesPage (net st.calls) params = .error e →
        tryFetchWithParams net lang (fuel + 1) st params =
          (if isTerminalError e then
            (some (.error e),
             { seen := st.seen, storage := st.storage, rand := st.rand,
               calls := st.calls + 1 })
          else
            (let r := getNextSearchParams lang st.rand st.seen st.storage
             tryFetchWithParams net lang fuel
               { seen := r.seen, storage := r.storage, rand := r.rand,
                 calls := st.calls + 1 }
               r.next)))
    ∧ isTerminalError invalidTokenError = false
    ∧ isTerminalError pageCapError = false
    ∧ isTerminalError onlyFirst1000Error = false
    ∧ isTerminalError genericFetchError = false
    ∧ isTerminalError rateLimitError = true := by
  refine ⟨?_, ?_, by decide, by decide, by decide, by decide, by decide⟩
  · intro c₁ c₂ m
    rfl
  · intro net lang fuel st params e hfetch
    by_cases hterm : isTerminalError e = true
    · rw [if_pos hterm]
      exact tryFetch_terminal_eq net lang fuel st params e hfetch hterm
    · rw [if_neg hterm]
      exact tryFetch_fallback_eq net lang fuel st params e hfetch (by simpa using hterm)

/-- Witness for `fallback_decision_message_only` at a concrete input: the
behavioral conjunct applied to the always-failing oracle. -/
theorem fallback_decision_message_only_witness :
    tryFetchWithParams netAlwaysFails none (0 + 1)
      { seen := [], storage := none, rand := [], calls := 0 }
      { criteria := criteria700, page := 1 } =
      (if isTerminalError { className := "TypeError", message := "network down" } then
        (some (.error { className := "TypeError", message := "network down" }),
         { seen := [], storage := none, rand := [],
           calls := ({ seen := [], storage := none, rand := [], calls := 0 }
             : CursorState).calls + 1 })
      else
        (let r := getNextSearchParams none [] [] none
         tryFetchWithParams netAlwaysFails none 0
           { seen := r.seen, storage := r.storage, rand := r.rand,
             calls := ({ seen := [], storage := none, rand := [], calls := 0 }
               : CursorState).calls + 1 }
           r.next)) :=
  (fallback_decision_message_only).2.1 netAlwaysFails none 0
    { seen := [], storage := none, rand := [], calls := 0 }
    { criteria := criteria700, page := 1 }
    { className := "TypeError", message := "network down" } rfl

/-- The store the zero-result branch writes for `criteria700`: exactly the
in-memory snapshot an epoch reset leaves behind for that criteria
(`localStorage.removeItem` clears only the persisted cell). -/
def storeZeroResult : SeenRepositories :=
  [(criteriaKey criteria700,
    { seenPages := JsSet.empty, totalPages := some 0, exhausted := true })]

/-- The revival run: a successful 25-result fetch for `criteria700` against
that snapshot. -/
def revivedRun : Option (Except JsError QueryResponse) × CursorState :=
  tryFetchWithParams (fun _ => .ok 25 [7]) none 1
    { seen := storeZeroResult, storage := none, rand := [], calls := 0 }
    { criteria := criteria700, page := 1 }

/-- The selection performed on the revived store. -/
def revivedSel : NextParamsResult :=
  getNextSearchParams none [] revivedRun.2.seen revivedRun.2.storage

/-- The cursor itself can write a store outside `WellFormedStore`, and on it
`getNextSearchParams` re-returns a seen page: the successful fetch revives
the stale zero-result entry as `{ seenPages {1}, totalPages 0, exhausted
false }` (`seen[key] ||` keeps the stored `totalPages 0` while `exhausted`
is recomputed against the freshly computed count of 3) and persists it; the
next selection then returns page 1 of the same criteria although page 1 is
already in its `seenPages`, with the persisted cell untouched (no reset).
The well-formedness hypothesis of the guarded no-reseen theorem therefore
covers only part of the cursor-reachable stores. -/
theorem revived_zero_entry_reseen :
    resultIsOk revivedRun.1 = true
    ∧ slookup revivedRun.2.seen (criteriaKey criteria700)
        = some { seenPages := ⟨[1], by decide⟩, totalPages := some 0, exhausted := false }
    ∧ ¬ WellFormedStore revivedRun.2.seen
    ∧ revivedSel.next = { criteria := criteria700, page := 1 }
    ∧ pageSeenIn revivedSel.seen (criteriaKey revivedSel.next.criteria)
        revivedSel.next.page = true
    ∧ revivedSel.storage = revivedRun.2.storage := by
  refine ⟨rfl, rfl, ?_, rfl, rfl, rfl⟩
  intro hwf
  obtain ⟨n, hn, hpos⟩ := hwf (criteriaKey criteria700)
    { seenPages := ⟨[1], by decide⟩, totalPages := some 0, exhausted := false } rfl rfl
  simp at hn
  omega
